import Mathlib

/-!
Shallow embedding of `src/music.py` (the musicfixer repository).

Modelling choices:
* Python text is modelled as `List Char` (`Str`), so that `str.strip` and
  `str.replace` become structurally recursive functions we can reason about.
* A filesystem path is a list of path segments (`os.path.join` appends a
  segment); the filesystem state is the list of existing paths.
* `mutagen.FileType` is modelled by its tag mapping (tag key to raw text,
  possibly absent); `mutagen.File` becomes an explicit `FsPath → TrackFile`
  environment parameter, and the module-level `MUSIC_DIR` constant becomes an
  explicit `FsPath` parameter of the batch runner.
* The `raise`/`except KeyError` control flow of `unflatten_track_file` and its
  caller is made explicit by the result type `UnflattenResult`, which carries
  the (possibly updated) filesystem state in both outcomes.
-/

/-- Python text, modelled as its list of characters. -/
abbrev Str := List Char

/-- A filesystem path: the list of segments joined by `os.path.join`. -/
abbrev FsPath := List Str

/-- Filesystem state: the list of paths that currently exist. -/
abbrev FS := List FsPath

/-- The whitespace characters removed by Python `str.strip()` (ASCII part;
the module only ever strips ordinary tag text). -/
def is_py_space (c : Char) : Bool :=
  c = ' ' || c = '\t' || c = '\n' || c = '\r' || c = '\x0b' || c = '\x0c'

/-- Python `str.strip()`: drop leading and trailing whitespace. -/
def py_strip (s : Str) : Str :=
  ((s.dropWhile is_py_space).reverse.dropWhile is_py_space).reverse

/-- Worker for Python `str.replace(pat, rep)`: scans left to right, replacing
non-overlapping occurrences of `pat` by `rep`; the `Nat` argument counts
pattern characters still to be skipped after a match (structural recursion on
the string so the kernel can evaluate it). -/
def py_replace_aux (pat rep : Str) : Nat → Str → Str
  | _, [] => []
  | Nat.succ k, _ :: rest => py_replace_aux pat rep k rest
  | 0, c :: rest =>
    if pat.isPrefixOf (c :: rest) && !pat.isEmpty then
      rep ++ py_replace_aux pat rep (pat.length - 1) rest
    else
      c :: py_replace_aux pat rep 0 rest

/-- Python `s.replace(pat, rep)` for non-empty `pat`. -/
def py_replace (pat rep s : Str) : Str :=
  py_replace_aux pat rep 0 s

/-- `music.py` tag-key constants. -/
def ALBUM_TITLE : Str := "TALB".data
def ARTIST : Str := "TPE1".data
def TRACK_TITLE : Str := "TIT2".data

/-- `sanitize_file_name_text` (music.py:45-54): strip, then the fixed ordered
replacements `/`→`-`, `?`→removed, `:`→`-`, `"`→removed. -/
def sanitize_file_name_text (raw : Str) : Str :=
  let s := py_strip raw
  let s := py_replace ['/'] ['-'] s
  let s := py_replace ['?'] [] s
  let s := py_replace [':'] ['-'] s
  let s := py_replace ['"'] [] s
  s

/-- A `mutagen.FileType`, reduced to what the code reads: its tag mapping. -/
structure TrackFile where
  tags : Str → Option Str

/-- `get_tag_value` (music.py:57-64): absent key yields empty text, present
key yields the sanitized value. -/
def get_tag_value (track_file : TrackFile) (tag_key : Str) : Str :=
  match track_file.tags tag_key with
  | none => []
  | some t => sanitize_file_name_text t

/-- `confirm_or_create_dir` (music.py:39-42) acting on the filesystem state
(the `True` return value is unused by the caller). -/
def confirm_or_create_dir (dir_path : FsPath) (fs : FS) : FS :=
  if dir_path ∈ fs then fs else dir_path :: fs

/-- `os.rename old new`: the file stops existing at `old` and exists at
`new`. -/
def os_rename (old_path new_path : FsPath) (fs : FS) : FS :=
  new_path :: fs.erase old_path

/-- Outcome of `unflatten_track_file`: either the propagated `KeyError`
(missing artist) or the returned boolean; both carry the filesystem state
after the call. -/
inductive UnflattenResult where
  | keyError (fs : FS)
  | ok (moved : Bool) (fs : FS)
deriving DecidableEq

/-- The album path segment computed at music.py:76-81: optional album lookup,
`or "Unknown Album"` default, then `.replace(".mp3", "")`. -/
def album_segment (track_file : TrackFile) : Str :=
  let album_title := get_tag_value track_file ALBUM_TITLE
  let album_title := if album_title = [] then "Unknown Album".data else album_title
  py_replace ".mp3".data [] album_title

/-- `unflatten_track_file` (music.py:67-96). -/
def unflatten_track_file (track_file : TrackFile) (original_track_path : FsPath)
    (new_root_dir : FsPath) (dry_run : Bool) (fs : FS) : UnflattenResult :=
  match track_file.tags ARTIST with
  | none => .keyError fs
  | some a =>
    let artist := sanitize_file_name_text a
    let album_title := album_segment track_file
    let track_title := get_tag_value track_file TRACK_TITLE
    let artist_dir := new_root_dir ++ [artist]
    let album_dir := artist_dir ++ [album_title]
    let track_new_path := new_root_dir ++ [artist, album_title, track_title ++ ".mp3".data]
    if track_new_path ∈ fs then
      .ok false fs
    else if dry_run then
      .ok true fs
    else
      let fs1 := confirm_or_create_dir artist_dir fs
      let fs2 := confirm_or_create_dir album_dir fs1
      let fs3 := os_rename original_track_path track_new_path fs2
      .ok true fs3

/-- The target path `unflatten_track_file` computes (music.py:85), `none`
when the artist tag is absent. -/
def planned_target (track_file : TrackFile) (new_root_dir : FsPath) : Option FsPath :=
  match track_file.tags ARTIST with
  | none => none
  | some a =>
    some (new_root_dir ++ [sanitize_file_name_text a, album_segment track_file,
      get_tag_value track_file TRACK_TITLE ++ ".mp3".data])

/-- Filesystem state after an `unflatten_track_file` call. -/
def resultFS : UnflattenResult → FS
  | .keyError fs => fs
  | .ok _ fs => fs

/-- Boolean outcome of an `unflatten_track_file` call (`none` when the
`KeyError` propagated). -/
def resultOutcome : UnflattenResult → Option Bool
  | .keyError _ => none
  | .ok moved _ => some moved

/-- How the `if file.endswith("mp3") ... elif file.endswith("jpg")` chain of
`mutagen_dialect_unflatten` (music.py:107-120) classifies a directory
entry. -/
inductive FileClass where
  | audio
  | image
  | other
deriving DecidableEq

/-- The batch runner's entry filter (music.py:108 and music.py:119): bare
three-character suffixes, no dot. -/
def classify_file (file : Str) : FileClass :=
  if "mp3".data.isSuffixOf file then .audio
  else if "jpg".data.isSuffixOf file then .image
  else .other

/-- Mutable state of the batch loop: the three counters and the filesystem
(`initial_count` is `len(files)`, fixed before the loop). -/
structure BatchState where
  count : Nat
  jpg_count : Nat
  file_existed_count : Nat
  fs : FS
deriving DecidableEq

/-- One iteration of the loop in `mutagen_dialect_unflatten`
(music.py:107-120): `mediaOf` stands for `mutagen.File`.  A `KeyError` from
`unflatten_track_file` is caught (only logged), so neither counter moves;
otherwise `count += was_moved; file_existed_count += not was_moved`. -/
def batch_step (mediaOf : FsPath → TrackFile) (music_dir : FsPath)
    (dry_run : Bool) (st : BatchState) (file : Str) : BatchState :=
  match classify_file file with
  | .audio =>
    let track_path := music_dir ++ [file]
    let track_file := mediaOf track_path
    match unflatten_track_file track_file track_path music_dir dry_run st.fs with
    | .keyError fs => { st with fs := fs }
    | .ok was_moved fs =>
      { st with
        count := st.count + (if was_moved then 1 else 0),
        file_existed_count := st.file_existed_count + (if was_moved then 0 else 1),
        fs := fs }
  | .image => { st with jpg_count := st.jpg_count + 1 }
  | .other => st

/-- The summary logged at music.py:122-127. -/
structure RunSummary where
  total_files : Nat
  mp3_files_moved : Nat
  jpg_files : Nat
  mp3_files_existed : Nat
deriving DecidableEq

/-- `mutagen_dialect_unflatten` (music.py:99-127), with the `os.listdir`
result, the `mutagen.File` environment and `MUSIC_DIR` as explicit
parameters. -/
def mutagen_dialect_unflatten (mediaOf : FsPath → TrackFile) (music_dir : FsPath)
    (files : List Str) (dry_run : Bool) (fs : FS) : RunSummary × FS :=
  let final := files.foldl (batch_step mediaOf music_dir dry_run)
    { count := 0, jpg_count := 0, file_existed_count := 0, fs := fs }
  (⟨files.length, final.count, final.jpg_count, final.file_existed_count⟩, final.fs)

/-- The per-track action of `fix_missing_file_extensions` (music.py:143-150):
a leaf name not ending in `".mp3"` is renamed to `name + ".mp3"` unless in
dry-run mode. -/
def fix_track (dry_run : Bool) (track : Str) : Str :=
  if !(".mp3".data.isSuffixOf track) then
    if dry_run then track else track ++ ".mp3".data
  else track

/-- `fix_missing_file_extensions` (music.py:130-150) on a two-level
artist/album tree given as nested listings, returning the tree after the
renames. -/
def fix_missing_file_extensions (tree : List (Str × List (Str × List Str)))
    (dry_run : Bool) : List (Str × List (Str × List Str)) :=
  tree.map fun d => (d.1, d.2.map fun a => (a.1, a.2.map (fix_track dry_run)))

/-- `n` concatenated copies of the literal `".mp3"`. -/
def mp3copies : Nat → Str
  | 0 => []
  | n + 1 => ".mp3".data ++ mp3copies n

/-- Per-character substitution equivalent to the sanitizer's replacement
chain: `/`→`-`, `?`→removed, `:`→`-`, `"`→removed, all else untouched. -/
def sanitize_subst (c : Char) : Str :=
  if c = '/' then ['-']
  else if c = '?' then []
  else if c = ':' then ['-']
  else if c = '"' then []
  else [c]

/-- Concatenation of per-character images, used to state that the sanitizer
touches characters independently. -/
def concatMap (f : Char → Str) : Str → Str
  | [] => []
  | c :: rest => f c ++ concatMap f rest

theorem concatMap_cons (f : Char → Str) (c : Char) (rest : Str) :
    concatMap f (c :: rest) = f c ++ concatMap f rest := rfl

theorem concatMap_append (f : Char → Str) (s t : Str) :
    concatMap f (s ++ t) = concatMap f s ++ concatMap f t := by
  induction s with
  | nil => rfl
  | cons c rest ih => simp [concatMap_cons, ih]

theorem concatMap_concatMap (f g : Char → Str) (s : Str) :
    concatMap f (concatMap g s) = concatMap (fun c => concatMap f (g c)) s := by
  induction s with
  | nil => rfl
  | cons c rest ih => simp [concatMap_cons, concatMap_append, ih]

theorem mem_concatMap {f : Char → Str} {c : Char} :
    ∀ {s : Str}, c ∈ concatMap f s → ∃ d ∈ s, c ∈ f d := by
  intro s
  induction s with
  | nil => intro h; cases h
  | cons d rest ih =>
    intro h
    rw [concatMap_cons, List.mem_append] at h
    rcases h with h | h
    · exact ⟨d, List.mem_cons_self d rest, h⟩
    · obtain ⟨e, he, hce⟩ := ih h
      exact ⟨e, List.mem_cons_of_mem d he, hce⟩

theorem concatMap_id_of_fix {f : Char → Str} :
    ∀ {s : Str}, (∀ c ∈ s, f c = [c]) → concatMap f s = s := by
  intro s
  induction s with
  | nil => intro _; rfl
  | cons c rest ih =>
    intro h
    rw [concatMap_cons, h c (List.mem_cons_self c rest),
      ih fun d hd => h d (List.mem_cons_of_mem c hd)]
    rfl

theorem py_replace_single_cons (a : Char) (rep : Str) (c : Char) (rest : Str) :
    py_replace [a] rep (c :: rest) =
      if c = a then rep ++ py_replace [a] rep rest
      else c :: py_replace [a] rep rest := by
  show (if [a].isPrefixOf (c :: rest) && !(List.isEmpty [a]) then
          rep ++ py_replace_aux [a] rep 0 rest
        else c :: py_replace_aux [a] rep 0 rest) = _
  have hpre : [a].isPrefixOf (c :: rest) = (a == c) := by
    simp [List.isPrefixOf]
  by_cases h : c = a
  · subst h
    simp [hpre, py_replace]
  · have hbc : (a == c) = false := beq_eq_false_iff_ne.mpr (Ne.symm h)
    simp [hpre, hbc, h, py_replace]

theorem py_replace_single_eq_concatMap (a : Char) (rep : Str) (s : Str) :
    py_replace [a] rep s = concatMap (fun c => if c = a then rep else [c]) s := by
  induction s with
  | nil => rfl
  | cons c rest ih =>
    rw [py_replace_single_cons, concatMap_cons]
    by_cases h : c = a <;> simp [h, ih]

/-- The whole sanitizer is strip followed by an independent per-character
substitution. -/
theorem sanitize_eq_concatMap (s : Str) :
    sanitize_file_name_text s = concatMap sanitize_subst (py_strip s) := by
  simp only [sanitize_file_name_text]
  rw [py_replace_single_eq_concatMap, py_replace_single_eq_concatMap,
    py_replace_single_eq_concatMap, py_replace_single_eq_concatMap,
    concatMap_concatMap, concatMap_concatMap, concatMap_concatMap]
  congr 1
  funext c
  by_cases h1 : c = '/'
  · simp [h1, concatMap, sanitize_subst]
  by_cases h2 : c = '?'
  · simp [h1, h2, concatMap, sanitize_subst]
  by_cases h3 : c = ':'
  · simp [h1, h2, h3, concatMap, sanitize_subst]
  by_cases h4 : c = '"'
  · simp [h1, h2, h3, h4, concatMap, sanitize_subst]
  · simp [h1, h2, h3, h4, concatMap, sanitize_subst]


theorem sanitize_subst_mem {d c : Char} (h : c ∈ sanitize_subst d) :
    c ≠ '/' ∧ c ≠ '?' ∧ c ≠ ':' ∧ c ≠ '"' := by
  unfold sanitize_subst at h
  split_ifs at h with h1 h2 h3 h4
  · simp at h; subst h; decide
  · simp at h
  · simp at h; subst h; decide
  · simp at h
  · simp at h; subst h; exact ⟨h1, h2, h3, h4⟩

theorem mem_sanitize_ne {s : Str} {c : Char} (h : c ∈ sanitize_file_name_text s) :
    c ≠ '/' ∧ c ≠ '?' ∧ c ≠ ':' ∧ c ≠ '"' := by
  rw [sanitize_eq_concatMap] at h
  obtain ⟨d, _, hc⟩ := mem_concatMap h
  exact sanitize_subst_mem hc

theorem mem_py_strip {s : Str} {c : Char} (h : c ∈ py_strip s) : c ∈ s := by
  unfold py_strip at h
  rw [List.mem_reverse] at h
  have h2 := (List.dropWhile_sublist is_py_space).mem h
  rw [List.mem_reverse] at h2
  exact (List.dropWhile_sublist is_py_space).mem h2

theorem sanitize_subst_fix {c : Char} (h1 : c ≠ '/') (h2 : c ≠ '?')
    (h3 : c ≠ ':') (h4 : c ≠ '"') : sanitize_subst c = [c] := by
  simp [sanitize_subst, h1, h2, h3, h4]

/-- C2: a track whose tag mapping has no artist key makes
`unflatten_track_file` propagate the missing-key failure, with the filesystem
state exactly as it was: no directory created, no file moved. -/
theorem missing_artist_total (track : TrackFile) (orig root : FsPath)
    (dry : Bool) (fs : FS) (h : track.tags ARTIST = none) :
    unflatten_track_file track orig root dry fs = .keyError fs := by
  simp [unflatten_track_file, h]

theorem missing_artist_total_witness :
    unflatten_track_file ⟨fun _ => none⟩ [] [] false [] = .keyError [] :=
  missing_artist_total ⟨fun _ => none⟩ [] [] false [] rfl

/-- C7: when the album tag is absent, or its optional lookup resolves to
empty text, the album path segment is the literal `"Unknown Album"`. -/
theorem album_default (track : TrackFile)
    (h : track.tags ALBUM_TITLE = none ∨ get_tag_value track ALBUM_TITLE = []) :
    album_segment track = "Unknown Album".data := by
  have h0 : get_tag_value track ALBUM_TITLE = [] := by
    rcases h with h | h
    · simp [get_tag_value, h]
    · exact h
  have h1 : album_segment track = py_replace ".mp3".data [] "Unknown Album".data := by
    simp [album_segment, h0]
  rw [h1]
  decide

theorem album_default_witness :
    album_segment ⟨fun _ => none⟩ = "Unknown Album".data :=
  album_default ⟨fun _ => none⟩ (Or.inl rfl)

/-- C4: sanitizer character safety — no output character is one of
`/ ? : "`, and the sanitizer is exactly strip followed by the independent
per-character substitution `sanitize_subst`, which leaves every character
other than those four unchanged. -/
theorem sanitize_character_safety (s : Str) :
    (∀ c, c ∈ sanitize_file_name_text s →
      c ≠ '/' ∧ c ≠ '?' ∧ c ≠ ':' ∧ c ≠ '"') ∧
    sanitize_file_name_text s = concatMap sanitize_subst (py_strip s) ∧
    (∀ c, c ≠ '/' → c ≠ '?' → c ≠ ':' → c ≠ '"' → sanitize_subst c = [c]) :=
  ⟨fun _ h => mem_sanitize_ne h, sanitize_eq_concatMap s,
    fun _ h1 h2 h3 h4 => sanitize_subst_fix h1 h2 h3 h4⟩

theorem sanitize_character_safety_witness :
    ('a' ≠ '/' ∧ 'a' ≠ '?' ∧ 'a' ≠ ':' ∧ 'a' ≠ '"') ∧
      sanitize_file_name_text "a/b".data =
        concatMap sanitize_subst (py_strip "a/b".data) :=
  ⟨(sanitize_character_safety "a/b".data).1 'a' (by decide),
    (sanitize_character_safety "a/b".data).2.1⟩

/-- C5 counterexample: the sanitizer is not idempotent — removing `?` can
expose interior whitespace at the boundary, which a second application then
strips: `sanitize "? a" = " a"` but `sanitize " a" = "a"`. -/
theorem sanitize_not_idempotent_cex :
    sanitize_file_name_text (sanitize_file_name_text "? a".data) ≠
      sanitize_file_name_text "? a".data := by decide

/-- C5 (amended): a second sanitizer application only strips the
leading/trailing whitespace that a removal replacement may have exposed:
`sanitize (sanitize x) = strip (sanitize x)`; hence idempotence holds exactly
when the first output has no leading/trailing whitespace. -/
theorem sanitize_sanitize_eq_strip (x : Str) :
    sanitize_file_name_text (sanitize_file_name_text x) =
      py_strip (sanitize_file_name_text x) := by
  rw [sanitize_eq_concatMap (sanitize_file_name_text x)]
  exact concatMap_id_of_fix fun c hc => by
    have h := mem_sanitize_ne (mem_py_strip hc)
    exact sanitize_subst_fix h.1 h.2.1 h.2.2.1 h.2.2.2

/-- C6: a dry run leaves the filesystem exactly as it was, yet reports the
same outcome (moved / skipped / missing-artist failure) as the non-dry run
would from the same state. -/
theorem dry_run_transparency (track : TrackFile) (orig root : FsPath) (fs : FS) :
    resultFS (unflatten_track_file track orig root true fs) = fs ∧
    resultOutcome (unflatten_track_file track orig root true fs) =
      resultOutcome (unflatten_track_file track orig root false fs) := by
  cases h : track.tags ARTIST with
  | none => simp [unflatten_track_file, h, resultFS, resultOutcome]
  | some a =>
    simp only [unflatten_track_file, h]
    by_cases hmem : root ++ [sanitize_file_name_text a, album_segment track,
        get_tag_value track TRACK_TITLE ++ ".mp3".data] ∈ fs <;>
      simp [hmem, resultFS, resultOutcome]

/-- The tag mapping of the spec's worked example. -/
def daft_punk_track : TrackFile :=
  ⟨fun k =>
    if k = ARTIST then some "Daft Punk".data
    else if k = ALBUM_TITLE then some "Discovery".data
    else if k = TRACK_TITLE then some "One More Time".data
    else none⟩

/-- C3: with artist, album and title tags present the planned target is
`root / sanitize(artist) / album_segment / (sanitize(title) + ".mp3")`; on
the Daft Punk example it is `R/Daft Punk/Discovery/One More Time.mp3`. -/
theorem path_composition (track : TrackFile) (root : FsPath) (a b t : Str)
    (ha : track.tags ARTIST = some a) (_hb : track.tags ALBUM_TITLE = some b)
    (ht : track.tags TRACK_TITLE = some t) :
    planned_target track root = some (root ++
      [sanitize_file_name_text a, album_segment track,
        sanitize_file_name_text t ++ ".mp3".data]) ∧
    planned_target daft_punk_track root = some (root ++
      ["Daft Punk".data, "Discovery".data, "One More Time.mp3".data]) := by
  constructor
  · simp [planned_target, ha, get_tag_value, ht]
  · have ha2 : daft_punk_track.tags ARTIST = some "Daft Punk".data := by decide
    have h1 : sanitize_file_name_text "Daft Punk".data = "Daft Punk".data := by decide
    have h2 : album_segment daft_punk_track = "Discovery".data := by decide
    have h3 : get_tag_value daft_punk_track TRACK_TITLE = "One More Time".data := by decide
    have h4 : "One More Time".data ++ ".mp3".data = "One More Time.mp3".data := by decide
    simp [planned_target, ha2, h1, h2, h3, h4]

theorem path_composition_witness :
    planned_target daft_punk_track [] = some ([] ++
      [sanitize_file_name_text "Daft Punk".data, album_segment daft_punk_track,
        sanitize_file_name_text "One More Time".data ++ ".mp3".data]) ∧
    planned_target daft_punk_track [] = some ([] ++
      ["Daft Punk".data, "Discovery".data, "One More Time.mp3".data]) :=
  path_composition daft_punk_track [] "Daft Punk".data "Discovery".data
    "One More Time".data (by decide) (by decide) (by decide)

theorem unflatten_skip_of_target_mem {track : TrackFile} {orig root : FsPath}
    {dry : Bool} {fs : FS} {p : FsPath}
    (h : planned_target track root = some p) (hmem : p ∈ fs) :
    unflatten_track_file track orig root dry fs = .ok false fs := by
  cases ha : track.tags ARTIST with
  | none => simp [planned_target, ha] at h
  | some a =>
    simp only [planned_target, ha, Option.some.injEq] at h
    simp only [unflatten_track_file, ha, h]
    simp [hmem]

theorem unflatten_moved_target_mem {track : TrackFile} {orig root : FsPath}
    {fs fs2 : FS} {p : FsPath}
    (h : planned_target track root = some p)
    (hrun : unflatten_track_file track orig root false fs = .ok true fs2) :
    p ∈ fs2 := by
  cases ha : track.tags ARTIST with
  | none => simp [planned_target, ha] at h
  | some a =>
    simp only [planned_target, ha, Option.some.injEq] at h
    simp only [unflatten_track_file, ha, h] at hrun
    by_cases hmem : p ∈ fs
    · simp [hmem] at hrun
    · simp [hmem] at hrun
      rw [← hrun, os_rename]
      exact List.mem_cons_self _ _

/-- C1: if the planned target path already exists, `unflatten_track_file`
returns `false` and leaves the filesystem untouched, whatever `dry_run` is;
consequently a second run of the same track against the same destination
after a successful move returns `false` and changes nothing. -/
theorem unflatten_no_overwrite (track : TrackFile) (orig orig2 root : FsPath)
    (dry dry2 : Bool) (fs fs2 : FS) (p : FsPath)
    (h : planned_target track root = some p) :
    (p ∈ fs → unflatten_track_file track orig root dry fs = .ok false fs) ∧
    (unflatten_track_file track orig root false fs = .ok true fs2 →
      unflatten_track_file track orig2 root dry2 fs2 = .ok false fs2) :=
  ⟨fun hmem => unflatten_skip_of_target_mem h hmem,
    fun hrun => unflatten_skip_of_target_mem h (unflatten_moved_target_mem h hrun)⟩

theorem unflatten_no_overwrite_witness :
    unflatten_track_file daft_punk_track [] [] false
        [["Daft Punk".data, "Discovery".data, "One More Time.mp3".data]] =
      .ok false [["Daft Punk".data, "Discovery".data, "One More Time.mp3".data]] :=
  (unflatten_no_overwrite daft_punk_track [] [] [] false false
      [["Daft Punk".data, "Discovery".data, "One More Time.mp3".data]] []
      ["Daft Punk".data, "Discovery".data, "One More Time.mp3".data]
      (by decide)).1 (by decide)

theorem py_replace_aux_skip (pat rep : Str) :
    ∀ l rest : Str, py_replace_aux pat rep l.length (l ++ rest) =
      py_replace_aux pat rep 0 rest := by
  intro l
  induction l with
  | nil => intro rest; rfl
  | cons x xs ih => intro rest; exact ih rest

theorem py_replace_consume {pat : Str} (rep rest : Str) (hne : pat ≠ []) :
    py_replace pat rep (pat ++ rest) = rep ++ py_replace pat rep rest := by
  cases pat with
  | nil => cases hne rfl
  | cons x xs =>
    have hpre : (x :: xs).isPrefixOf (x :: (xs ++ rest)) = true :=
      List.isPrefixOf_iff_prefix.mpr (by simp)
    show (if (x :: xs).isPrefixOf (x :: (xs ++ rest)) && !(List.isEmpty (x :: xs)) then
            rep ++ py_replace_aux (x :: xs) rep ((x :: xs).length - 1) (xs ++ rest)
          else x :: py_replace_aux (x :: xs) rep 0 (xs ++ rest)) = _
    rw [hpre]
    simp only [List.isEmpty_cons, Bool.not_false, Bool.and_true, List.length_cons,
      Nat.add_sub_cancel, if_true]
    rw [py_replace_aux_skip]
    rfl

theorem py_replace_mp3copies : ∀ n, py_replace ".mp3".data [] (mp3copies n) = [] := by
  intro n
  induction n with
  | zero => rfl
  | succ m ih =>
    show py_replace ".mp3".data [] (".mp3".data ++ mp3copies m) = []
    rw [py_replace_consume _ _ (by decide)]
    simpa using ih

theorem mp3copies_ne_nil {n : Nat} (h : 1 ≤ n) : mp3copies n ≠ [] := by
  cases n with
  | zero => cases h
  | succ m =>
    show ".mp3".data ++ mp3copies m ≠ []
    intro hc
    exact absurd (List.append_eq_nil.mp hc).1 (by decide)

/-- C9: the `.replace(".mp3", "")` cleanup runs after the `"Unknown Album"`
default, so an album tag that sanitizes to a non-empty concatenation of
`".mp3"` copies yields an empty album segment, not `"Unknown Album"`. -/
theorem mp3_strip_after_default (track : TrackFile) (s : Str) (n : Nat)
    (hs : track.tags ALBUM_TITLE = some s) (hn : 1 ≤ n)
    (hsan : sanitize_file_name_text s = mp3copies n) :
    album_segment track = [] := by
  have h1 : get_tag_value track ALBUM_TITLE = mp3copies n := by
    simp [get_tag_value, hs, hsan]
  have h2 : album_segment track = py_replace ".mp3".data [] (mp3copies n) := by
    simp [album_segment, h1, mp3copies_ne_nil hn]
  rw [h2, py_replace_mp3copies]

theorem mp3_strip_after_default_witness :
    album_segment ⟨fun k => if k = ALBUM_TITLE then some ".mp3".data else none⟩ = [] :=
  mp3_strip_after_default
    ⟨fun k => if k = ALBUM_TITLE then some ".mp3".data else none⟩
    ".mp3".data 1 (by decide) (by decide) (by decide)

theorem suffix_getLast {s t : Str} (h : s.isSuffixOf t = true) (hne : s ≠ []) :
    t.getLast? = s.getLast? := by
  obtain ⟨u, rfl⟩ := List.isSuffixOf_iff_suffix.mp h
  exact List.getLast?_append_of_ne_nil u hne

theorem jpg_not_mp3 {file : Str} (h : "jpg".data.isSuffixOf file = true) :
    "mp3".data.isSuffixOf file = false := by
  by_contra hc
  rw [Bool.not_eq_false] at hc
  have h1 := suffix_getLast h (by decide)
  have h2 := suffix_getLast hc (by decide)
  rw [h1] at h2
  exact absurd h2 (by decide)

/-- C10: the batch filter tests the bare suffixes `mp3` / `jpg` (no dot), so
a name like `songmp3` is dispatched to the executor and any `jpg`-suffixed
name counts as an image, while the extension-repair tool tests the dotted
suffix `.mp3`: it leaves a leaf name unchanged exactly when the name ends in
`.mp3`, and would rename `songmp3`. -/
theorem batch_suffix_filter_no_dot :
    (∀ file : Str, "mp3".data.isSuffixOf file = true →
      classify_file file = .audio) ∧
    (∀ file : Str, "jpg".data.isSuffixOf file = true →
      classify_file file = .image) ∧
    (∀ (mediaOf : FsPath → TrackFile) (music_dir : FsPath) (dry_run : Bool)
        (st : BatchState) (file : Str), "mp3".data.isSuffixOf file = true →
      batch_step mediaOf music_dir dry_run st file =
        match unflatten_track_file (mediaOf (music_dir ++ [file]))
            (music_dir ++ [file]) music_dir dry_run st.fs with
        | .keyError fs => { st with fs := fs }
        | .ok was_moved fs =>
          { st with
            count := st.count + (if was_moved then 1 else 0),
            file_existed_count :=
              st.file_existed_count + (if was_moved then 0 else 1),
            fs := fs }) ∧
    ("mp3".data.isSuffixOf "songmp3".data = true ∧
      ".mp3".data.isSuffixOf "songmp3".data = false ∧
      fix_track false "songmp3".data = "songmp3.mp3".data) ∧
    (∀ track : Str, fix_track false track = track ↔
      ".mp3".data.isSuffixOf track = true) := by
  refine ⟨fun file h => by simp [classify_file, h],
    fun file h => by simp [classify_file, jpg_not_mp3 h, h],
    fun mediaOf music_dir dry_run st file h => ?_, by decide, fun track => ?_⟩
  · have hcl : classify_file file = .audio := by simp [classify_file, h]
    simp only [batch_step, hcl]
  · by_cases hs : ".mp3".data.isSuffixOf track = true
    · simp [fix_track, hs]
    · have hb : ".mp3".data.isSuffixOf track = false :=
        Bool.eq_false_iff.mpr hs
      simp [fix_track, hb, hs]

theorem batch_suffix_filter_no_dot_witness :
    classify_file "songmp3".data = FileClass.audio ∧
      classify_file "pic.jpg".data = FileClass.image :=
  ⟨batch_suffix_filter_no_dot.1 "songmp3".data (by decide),
    batch_suffix_filter_no_dot.2.1 "pic.jpg".data (by decide)⟩

/-- Concrete source directory for the batch scenario. -/
def scenario_dir : FsPath := ["Music".data]

/-- Scenario track with full tags, first destination. -/
def track_a : TrackFile :=
  ⟨fun k =>
    if k = ARTIST then some "ArtistA".data
    else if k = ALBUM_TITLE then some "AlbumA".data
    else if k = TRACK_TITLE then some "SongA".data
    else none⟩

/-- Scenario track with full tags, second (distinct) destination. -/
def track_b : TrackFile :=
  ⟨fun k =>
    if k = ARTIST then some "ArtistB".data
    else if k = ALBUM_TITLE then some "AlbumB".data
    else if k = TRACK_TITLE then some "SongB".data
    else none⟩

/-- Scenario track with no artist key. -/
def track_c : TrackFile :=
  ⟨fun k => if k = TRACK_TITLE then some "SongC".data else none⟩

/-- Scenario directory listing: 3 mp3 files and 2 jpg files. -/
def scenario_files : List Str :=
  ["a.mp3".data, "b.mp3".data, "c.mp3".data, "pic1.jpg".data, "pic2.jpg".data]

/-- Scenario `mutagen.File` environment. -/
def scenario_media (p : FsPath) : TrackFile :=
  if p = scenario_dir ++ ["a.mp3".data] then track_a
  else if p = scenario_dir ++ ["b.mp3".data] then track_b
  else if p = scenario_dir ++ ["c.mp3".data] then track_c
  else ⟨fun _ => none⟩

/-- Scenario initial filesystem: exactly the five source files. -/
def scenario_fs : FS := scenario_files.map fun f => scenario_dir ++ [f]

/-- C8: on a directory of 3 mp3 files (two fully tagged with distinct
destinations, one with no artist key) and 2 jpg files, the batch processes
every file, the mid-list missing-artist failure aborts nothing, and the
summary is total=5, moved=2, jpg=2, skipped-existing=0 — the failed file is
counted in neither counter and stays at its source path, while the two tagged
files are moved to their planned destinations. -/
theorem batch_aggregation :
    (mutagen_dialect_unflatten scenario_media scenario_dir scenario_files
        false scenario_fs).1 = ⟨5, 2, 2, 0⟩ ∧
    scenario_dir ++ ["ArtistA".data, "AlbumA".data, "SongA.mp3".data] ∈
      (mutagen_dialect_unflatten scenario_media scenario_dir scenario_files
        false scenario_fs).2 ∧
    scenario_dir ++ ["ArtistB".data, "AlbumB".data, "SongB.mp3".data] ∈
      (mutagen_dialect_unflatten scenario_media scenario_dir scenario_files
        false scenario_fs).2 ∧
    scenario_dir ++ ["c.mp3".data] ∈
      (mutagen_dialect_unflatten scenario_media scenario_dir scenario_files
        false scenario_fs).2 := by
  decide
